import Mathlib

/-!
Verification of the Mint expiry-notification scheduler.

The subject is the backend `NotificationService`
(`backend/services/notificationService.js`) together with the second copy of
the same class found in the repository (modelled here in namespace `Part008`).
Dates are modelled as integer epoch-millisecond timestamps in a single
reference timezone (UTC), so `date.setHours(0,0,0,0)` becomes truncation to
the enclosing day boundary and "same calendar day" becomes equality of floor
day indices.  A missing or unparseable `expDate` is modelled as `none`
(JavaScript `new Date(bad)` yields `NaN`, which fails the comparisons
`=== 10` and `>= 0 && <= 5`, exactly as `none` does here).
-/

namespace Mint

/-- Milliseconds in one day: the constant `1000 * 60 * 60 * 24` used by the
service's date arithmetic. -/
def dayMs : Int := 86400000

/-- JavaScript `Math.floor(a / b)` on integer operands: floor division. -/
def jsFloorDiv (a b : Int) : Int := Int.fdiv a b

/-- JavaScript `Math.ceil(a / b)` on integer operands: ceiling division. -/
def jsCeilDiv (a b : Int) : Int := -(Int.fdiv (-a) b)

/-- JavaScript `d.setHours(0,0,0,0)`: truncate an epoch-ms timestamp to the
start of its day (midnight of the reference timezone). -/
def setMidnight (t : Int) : Int := t - t % dayMs

/-- A product row as the scheduler reads it from the `products` collection.
`expDate` holds the parsed epoch-ms value of the stored expiry date; `none`
models a missing or unparseable date (JS `NaN` milliseconds). -/
structure Product where
  id : String
  name : String
  expDate : Option Int
deriving DecidableEq

/-- The per-user `notificationHistory` object: reminder key mapped to the
epoch-ms instant recorded by `new Date().toISOString()` when that reminder
was sent.  Modelled as an association list in insertion order. -/
abbrev History := List (String × Int)

/-- Object property read `h[key]`: `none` models `undefined`. -/
def hGet (h : History) (k : String) : Option Int :=
  match h with
  | [] => none
  | (k', v) :: rest => if k' = k then some v else hGet rest k

/-- Object property write `h[key] = v`: overwrite in place, or append. -/
def hSet (h : History) (k : String) (v : Int) : History :=
  match h with
  | [] => [(k, v)]
  | (k', v') :: rest =>
    if k' = k then (k, v) :: rest else (k', v') :: hSet rest k v

/-- An FCM message as assembled by the service: notification title and body
plus the string-valued `data` payload, in the order the source lists the
fields. -/
structure Message where
  title : String
  body : String
  data : List (String × String)
deriving DecidableEq

/-- The value returned by `sendNotification`: the FCM call is wrapped in
`try/catch`, so the caller always receives a normal return value carrying a
success flag (it never observes an exception). -/
structure SendResult where
  success : Bool
deriving DecidableEq

/-- `sendNotification(message)`: attempts delivery (the outcome of the
underlying `admin.messaging().send` is the argument), catches any error and
reports it only through the returned success flag. -/
def sendNotification (outcome : Bool) : SendResult := ⟨outcome⟩

/-- A Firestore write issued on the user document during a pass, i.e. one
`db.collection('users').doc(userId).update(...)` call. -/
inductive WriteOp where
  | lastWeekly (userId : String) (t : Int)
  | history (userId : String) (h : History)
deriving DecidableEq

/-- Is a write the `notificationHistory` update? -/
def WriteOp.isHistory : WriteOp → Bool
  | WriteOp.history _ _ => true
  | _ => false

/-- A user document as read during a pass: `fcmToken` absent means the user
is skipped, `lastWeeklyCheck` is the parsed timestamp of the stored ISO
string (absent if the field has never been written). -/
structure User where
  id : String
  fcmToken : Option String
  lastWeeklyCheck : Option Int
  notificationHistory : History
deriving DecidableEq

/-- Everything a pass of `checkAndSendExpiryNotifications` produces: emitted
messages tagged with the user they went to, the store writes in order, the
ids of the users that were fully processed, and whether a thrown store error
aborted the user loop. -/
structure PassResult where
  sends : List (String × Message)
  writes : List WriteOp
  processed : List String
  aborted : Bool
deriving DecidableEq

namespace Backend

/-- `getDaysUntilExpiry(expDate)` of the backend service, with the implicit
`new Date()` clock passed explicitly as `now`: normalize both dates to
midnight and ceiling-divide the difference by one day.  A `NaN` expiry
propagates (`none`). -/
def getDaysUntilExpiry (now : Int) (expDate : Option Int) : Option Int :=
  match expDate with
  | none => none
  | some e =>
    let today := setMidnight now
    let expiry := setMidnight e
    let diffTime := expiry - today
    some (jsCeilDiv diffTime dayMs)

/-- `isSameDay(date1, date2)`: the two timestamps fall on the same calendar
day (same floor day index in the reference timezone). -/
def isSameDay (date1 date2 : Int) : Bool :=
  jsFloorDiv date1 dayMs == jsFloorDiv date2 dayMs

/-- `shouldSendWeeklyNotification(lastWeeklyCheck)` with the implicit clock
passed as `now`: due when no timestamp is recorded, or when the floor of the
elapsed time in days is at least 7. -/
def shouldSendWeeklyNotification (now : Int) (lastWeeklyCheck : Option Int) : Bool :=
  match lastWeeklyCheck with
  | none => true
  | some lastCheck =>
    let daysDiff := jsFloorDiv (now - lastCheck) dayMs
    decide (7 ≤ daysDiff)

/-- The message built by `send10DayWarning`. -/
def send10DayWarning (p : Product) : Message :=
  { title := "⏰ Expiry Warning"
    body := p.name ++ " expires in 10 days"
    data := [("type", "expiry_warning"), ("productId", p.id), ("daysLeft", "10")] }

/-- The message built by `sendDailyExpiryWarning` for `daysLeft` 0..5. -/
def sendDailyExpiryWarning (p : Product) (daysLeft : Int) : Message :=
  let title :=
    if daysLeft = 0 then "🚨 Expires Today!"
    else if daysLeft = 1 then "⚠️ Expires Tomorrow"
    else "⏰ Expiring Soon"
  let body :=
    if daysLeft = 0 then p.name ++ " expires TODAY!"
    else if daysLeft = 1 then p.name ++ " expires tomorrow!"
    else p.name ++ " expires in " ++ toString daysLeft ++ " days"
  { title := title
    body := body
    data := [("type", "daily_expiry"), ("productId", p.id), ("daysLeft", toString daysLeft)] }

/-- The filter inside the backend `sendWeeklySummary`: products whose
days-until-expiry is in 0..7. -/
def expiringSoon (now : Int) (products : List Product) : List Product :=
  products.filter (fun p =>
    match getDaysUntilExpiry now p.expDate with
    | some days => decide (0 ≤ days ∧ days ≤ 7)
    | none => false)

/-- Backend `sendWeeklySummary`: when no item expires within 7 days it
returns early and emits nothing; otherwise it emits one summary message
whose `count` is the number of qualifying items. -/
def sendWeeklySummary (now : Int) (products : List Product) : List Message :=
  let soon := expiringSoon now products
  if soon.length = 0 then []
  else
    [{ title := "🗓️ Weekly Food Check"
       body := "You have " ++ toString soon.length ++ " item(s) expiring within 7 days!"
       data := [("type", "weekly_summary"), ("count", toString soon.length)] }]

/-- One iteration of the product loop in `processUserNotifications`: the
10-day block runs first and may mutate the history, then the 0..5-day block
reads the (possibly mutated) history.  Returns the emitted messages in order
and the updated history. -/
def processProduct (now : Int) (p : Product) (h : History) : List Message × History :=
  let today := setMidnight now
  let daysUntilExpiry := getDaysUntilExpiry now p.expDate
  let tenKey := p.id ++ "_10day"
  let step10 :=
    if daysUntilExpiry = some 10 then
      if (hGet h tenKey).isNone then
        ([send10DayWarning p], hSet h tenKey now)
      else ([], h)
    else ([], h)
  match daysUntilExpiry with
  | some d =>
    if 0 ≤ d ∧ d ≤ 5 then
      let key := p.id ++ "_" ++ toString d ++ "day"
      let dueNow :=
        match hGet step10.2 key with
        | none => true
        | some lastSent => !(isSameDay lastSent today)
      if dueNow then
        (step10.1 ++ [sendDailyExpiryWarning p d], hSet step10.2 key now)
      else step10
    else step10
  | none => step10

/-- The whole product loop of `processUserNotifications`, threading the
in-memory history through the iterations. -/
def processProducts (now : Int) (products : List Product) (h : History) :
    List Message × History :=
  match products with
  | [] => ([], h)
  | p :: rest =>
    let r := processProduct now p h
    let r' := processProducts now rest r.2
    (r.1 ++ r'.1, r'.2)

/-- `processUserNotifications(userId, fcmToken, products)`: evaluate the
weekly digest first (sending it and writing `lastWeeklyCheck` to today's
midnight ISO string when due), then run the product loop, then persist the
mutated history with a final update.  Returns the emitted messages and the
issued writes, each in program order. -/
def processUserNotifications (now : Int) (u : User) (products : List Product) :
    List Message × List WriteOp :=
  let today := setMidnight now
  let shouldSendWeekly := shouldSendWeeklyNotification now u.lastWeeklyCheck
  let weeklySends := if shouldSendWeekly then sendWeeklySummary now products else []
  let weeklyWrites := if shouldSendWeekly then [WriteOp.lastWeekly u.id today] else []
  let r := processProducts now products u.notificationHistory
  (weeklySends ++ r.1, weeklyWrites ++ [WriteOp.history u.id r.2])

/-- The user loop of `checkAndSendExpiryNotifications`.  The whole loop sits
inside a single `try`: a user with no FCM token is skipped with `continue`;
`readFails u.id = true` models a thrown store error while fetching that
user's products or user document, which unwinds to the `catch` outside the
loop (the backend logs and returns, the other copy rethrows), so the
remaining users are not evaluated and no write happens for the failing user. -/
def passLoop (now : Int) (users : List User) (productsOf : String → List Product)
    (readFails : String → Bool) : PassResult :=
  match users with
  | [] => ⟨[], [], [], false⟩
  | u :: rest =>
    match u.fcmToken with
    | none => passLoop now rest productsOf readFails
    | some _ =>
      if readFails u.id then ⟨[], [], [], true⟩
      else
        let r := processUserNotifications now u (productsOf u.id)
        let rest' := passLoop now rest productsOf readFails
        ⟨r.1.map (fun m => (u.id, m)) ++ rest'.sends,
         r.2 ++ rest'.writes,
         u.id :: rest'.processed,
         rest'.aborted⟩

/-- Delivery-aware form of one product-loop iteration: identical control flow
to `Backend.processProduct`, but every emitted message is pushed through
`sendNotification` with the outcome the oracle `ork` assigns to the next
send ordinal `k`.  The returned value is never inspected by the loop (the
source ignores it), and the next free ordinal is threaded out. -/
def processProductD (now : Int) (p : Product) (h : History)
    (ork : Nat → Bool) (k : Nat) :
    List (Message × SendResult) × History × Nat :=
  let today := setMidnight now
  let daysUntilExpiry := getDaysUntilExpiry now p.expDate
  let tenKey := p.id ++ "_10day"
  let step10 :=
    if daysUntilExpiry = some 10 then
      if (hGet h tenKey).isNone then
        ([(send10DayWarning p, sendNotification (ork k))], hSet h tenKey now, k + 1)
      else ([], h, k)
    else ([], h, k)
  match daysUntilExpiry with
  | some d =>
    if 0 ≤ d ∧ d ≤ 5 then
      let key := p.id ++ "_" ++ toString d ++ "day"
      let dueNow :=
        match hGet step10.2.1 key with
        | none => true
        | some lastSent => !(isSameDay lastSent today)
      if dueNow then
        (step10.1 ++ [(sendDailyExpiryWarning p d, sendNotification (ork step10.2.2))],
         hSet step10.2.1 key now, step10.2.2 + 1)
      else step10
    else step10
  | none => step10

/-- Delivery-aware form of the whole product loop. -/
def processProductsD (now : Int) (products : List Product) (h : History)
    (ork : Nat → Bool) (k : Nat) :
    List (Message × SendResult) × History × Nat :=
  match products with
  | [] => ([], h, k)
  | p :: rest =>
    let r := processProductD now p h ork k
    let r' := processProductsD now rest r.2.1 ork r.2.2
    (r.1 ++ r'.1, r'.2)

/-- Attach delivery outcomes, in order, to a list of already-built messages
(used for the digest, whose message is built and then sent through
`sendNotification` like every other message). -/
def attachOutcomes (ms : List Message) (ork : Nat → Bool) (k : Nat) :
    List (Message × SendResult) × Nat :=
  match ms with
  | [] => ([], k)
  | m :: rest =>
    let r := attachOutcomes rest ork (k + 1)
    ((m, sendNotification (ork k)) :: r.1, r.2)

/-- Delivery-aware `processUserNotifications`: the digest (when due) is sent
first and consumes the first ordinals, then the product loop.  As in the
source, no delivery outcome influences any decision or any write. -/
def processUserNotificationsD (now : Int) (u : User) (products : List Product)
    (ork : Nat → Bool) : List (Message × SendResult) × List WriteOp :=
  let today := setMidnight now
  let shouldSendWeekly := shouldSendWeeklyNotification now u.lastWeeklyCheck
  let weekly :=
    if shouldSendWeekly then attachOutcomes (sendWeeklySummary now products) ork 0
    else ([], 0)
  let weeklyWrites := if shouldSendWeekly then [WriteOp.lastWeekly u.id today] else []
  let r := processProductsD now products u.notificationHistory ork weekly.2
  (weekly.1 ++ r.1, weeklyWrites ++ [WriteOp.history u.id r.2.1])

/-- Repeated evaluation of the product loop body on one product at a given
sequence of clock instants, accumulating the emitted messages and threading
the persisted history from one evaluation to the next. -/
def runEvals (p : Product) (h : History) : List Int → List Message × History
  | [] => ([], h)
  | now :: rest =>
    let r := processProduct now p h
    let r' := runEvals p r.2 rest
    (r.1 ++ r'.1, r'.2)

/-- How many of the emitted messages are the 10-day warning for `p`. -/
def tenDayCount (p : Product) (ms : List Message) : Nat :=
  ms.countP (fun m => decide (m = send10DayWarning p))

end Backend

namespace Part008

/-- `getDaysUntilExpiry` of the second service copy (character-identical to
the backend one), clock passed as `now`. -/
def getDaysUntilExpiry (now : Int) (expDate : Option Int) : Option Int :=
  match expDate with
  | none => none
  | some e =>
    let today := setMidnight now
    let expiry := setMidnight e
    let diffTime := expiry - today
    some (jsCeilDiv diffTime dayMs)

/-- `isSameDay` of the second service copy. -/
def isSameDay (date1 date2 : Int) : Bool :=
  jsFloorDiv date1 dayMs == jsFloorDiv date2 dayMs

/-- `shouldSendWeeklyNotification` of the second service copy. -/
def shouldSendWeeklyNotification (now : Int) (lastWeeklyCheck : Option Int) : Bool :=
  match lastWeeklyCheck with
  | none => true
  | some lastCheck =>
    let daysDiff := jsFloorDiv (now - lastCheck) dayMs
    decide (7 ≤ daysDiff)

/-- The message built by the second copy's `send10DayWarning` (title differs
from the backend only in the leading emoji). -/
def send10DayWarning (p : Product) : Message :=
  { title := " Expiry Warning"
    body := p.name ++ " expires in 10 days"
    data := [("type", "expiry_warning"), ("productId", p.id), ("daysLeft", "10")] }

/-- The message built by the second copy's `sendDailyExpiryWarning`. -/
def sendDailyExpiryWarning (p : Product) (daysLeft : Int) : Message :=
  let title :=
    if daysLeft = 0 then " Expires Today!"
    else if daysLeft = 1 then " Expires Tomorrow"
    else " Expiring Soon"
  let body :=
    if daysLeft = 0 then p.name ++ " expires TODAY!"
    else if daysLeft = 1 then p.name ++ " expires tomorrow!"
    else p.name ++ " expires in " ++ toString daysLeft ++ " days"
  { title := title
    body := body
    data := [("type", "daily_expiry"), ("productId", p.id), ("daysLeft", toString daysLeft)] }

/-- The second copy's `sendWeeklySummary`: no filter and no early return — it
always emits one reminder whose `totalItems` is the length of the full
product list. -/
def sendWeeklySummary (products : List Product) : List Message :=
  [{ title := " Weekly Reminder"
     body := "check your food items!"
     data := [("type", "weekly_reminder"), ("totalItems", toString products.length)] }]

/-- One iteration of the second copy's product loop (character-identical
control flow to the backend's). -/
def processProduct (now : Int) (p : Product) (h : History) : List Message × History :=
  let today := setMidnight now
  let daysUntilExpiry := getDaysUntilExpiry now p.expDate
  let tenKey := p.id ++ "_10day"
  let step10 :=
    if daysUntilExpiry = some 10 then
      if (hGet h tenKey).isNone then
        ([send10DayWarning p], hSet h tenKey now)
      else ([], h)
    else ([], h)
  match daysUntilExpiry with
  | some d =>
    if 0 ≤ d ∧ d ≤ 5 then
      let key := p.id ++ "_" ++ toString d ++ "day"
      let dueNow :=
        match hGet step10.2 key with
        | none => true
        | some lastSent => !(isSameDay lastSent today)
      if dueNow then
        (step10.1 ++ [sendDailyExpiryWarning p d], hSet step10.2 key now)
      else step10
    else step10
  | none => step10

end Part008

/-! ## Basic lemmas about the date arithmetic and the history map -/

theorem dayMs_pos : (0 : Int) < dayMs := by decide

theorem jsFloorDiv_day (a : Int) : jsFloorDiv a dayMs = a / dayMs :=
  Int.fdiv_eq_ediv a (by decide)

theorem jsCeilDiv_day (a : Int) : jsCeilDiv a dayMs = -(-a / dayMs) := by
  unfold jsCeilDiv
  rw [Int.fdiv_eq_ediv _ (by decide : (0 : Int) ≤ dayMs)]

theorem hGet_hSet (h : History) (k k' : String) (v : Int) :
    hGet (hSet h k v) k' = if k = k' then some v else hGet h k' := by
  induction h with
  | nil => simp [hGet, hSet]
  | cons kv rest ih =>
    obtain ⟨k₀, v₀⟩ := kv
    by_cases hk : k₀ = k
    · subst hk
      by_cases hk' : k₀ = k' <;> simp [hGet, hSet, hk']
    · simp only [hSet, if_neg hk, hGet]
      by_cases hk' : k₀ = k'
      · subst hk'
        have hne : ¬ k = k₀ := fun hkk => hk hkk.symm
        simp [hGet, hne]
      · simp [hGet, hk', ih]

theorem hGet_hSet_preserves (h : History) (k k' : String) (v : Int)
    (hne : hGet h k' ≠ none) : hGet (hSet h k v) k' ≠ none := by
  rw [hGet_hSet]
  by_cases hk : k = k' <;> simp [hk, hne]

theorem isSameDay_iff (a b : Int) :
    Backend.isSameDay a b = true ↔ a / dayMs = b / dayMs := by
  simp [Backend.isSameDay, jsFloorDiv_day]

theorem setMidnight_eq_of_sameDay {a b : Int} (hab : Backend.isSameDay a b = true) :
    setMidnight a = setMidnight b := by
  rw [isSameDay_iff] at hab
  simp only [setMidnight, dayMs] at *
  omega

theorem isSameDay_setMidnight_self (t : Int) :
    Backend.isSameDay t (setMidnight t) = true := by
  rw [isSameDay_iff]
  simp only [setMidnight, dayMs]
  omega

theorem getDaysUntilExpiry_sameDay {a b : Int} (ed : Option Int)
    (hab : Backend.isSameDay a b = true) :
    Backend.getDaysUntilExpiry a ed = Backend.getDaysUntilExpiry b ed := by
  cases ed with
  | none => rfl
  | some e => simp [Backend.getDaysUntilExpiry, setMidnight_eq_of_sameDay hab]

/-! ## Branch characterizations of one product-loop iteration -/

theorem processProduct_unknown (now : Int) (p : Product) (h : History)
    (hexp : p.expDate = none) :
    Backend.processProduct now p h = ([], h) := by
  simp [Backend.processProduct, Backend.getDaysUntilExpiry, hexp]

theorem processProduct_outside (now : Int) (p : Product) (h : History) (d : Int)
    (hd : Backend.getDaysUntilExpiry now p.expDate = some d)
    (hne10 : d ≠ 10) (hout : ¬(0 ≤ d ∧ d ≤ 5)) :
    Backend.processProduct now p h = ([], h) := by
  simp [Backend.processProduct, hd, hne10, hout]

theorem processProduct_ten_fresh (now : Int) (p : Product) (h : History)
    (hd : Backend.getDaysUntilExpiry now p.expDate = some 10)
    (hfresh : hGet h (p.id ++ "_10day") = none) :
    Backend.processProduct now p h
      = ([Backend.send10DayWarning p], hSet h (p.id ++ "_10day") now) := by
  simp [Backend.processProduct, hd, hfresh]

theorem processProduct_ten_sent (now : Int) (p : Product) (h : History) (t : Int)
    (hd : Backend.getDaysUntilExpiry now p.expDate = some 10)
    (hsent : hGet h (p.id ++ "_10day") = some t) :
    Backend.processProduct now p h = ([], h) := by
  simp [Backend.processProduct, hd, hsent]

theorem processProduct_daily_due (now : Int) (p : Product) (h : History) (d : Int)
    (hd : Backend.getDaysUntilExpiry now p.expDate = some d)
    (hd0 : 0 ≤ d) (hd5 : d ≤ 5)
    (hfresh : (hGet h (p.id ++ "_" ++ toString d ++ "day")).all
        (fun t => !(Backend.isSameDay t (setMidnight now))) = true) :
    Backend.processProduct now p h
      = ([Backend.sendDailyExpiryWarning p d],
         hSet h (p.id ++ "_" ++ toString d ++ "day") now) := by
  have hne10 : d ≠ 10 := by omega
  cases hget : hGet h (p.id ++ "_" ++ toString d ++ "day") with
  | none => simp [Backend.processProduct, hd, hne10, hd0, hd5, hget]
  | some t =>
    rw [hget] at hfresh
    simp only [Option.all_some] at hfresh
    simp [Backend.processProduct, hd, hne10, hd0, hd5, hget, hfresh]

theorem processProduct_daily_already (now : Int) (p : Product) (h : History) (d t : Int)
    (hd : Backend.getDaysUntilExpiry now p.expDate = some d)
    (hd0 : 0 ≤ d) (hd5 : d ≤ 5)
    (hsent : hGet h (p.id ++ "_" ++ toString d ++ "day") = some t)
    (htoday : Backend.isSameDay t (setMidnight now) = true) :
    Backend.processProduct now p h = ([], h) := by
  have hne10 : d ≠ 10 := by omega
  simp [Backend.processProduct, hd, hne10, hd0, hd5, hsent, htoday]

/-! ## C7: the days-until-expiry computation -/

/-- C7: for every parseable expiry date and current instant, the computed
days-until-expiry is exactly the ceiling of the midnight-normalized
difference divided by one day, and it is negative exactly when the expiry
midnight is before today's midnight, zero exactly when the two midnights
coincide (expires today), and positive exactly when the expiry midnight is
later (days remaining). -/
theorem C7_days_until_expiry (now e : Int) :
    ∃ d : Int,
      Backend.getDaysUntilExpiry now (some e)
        = some (jsCeilDiv (setMidnight e - setMidnight now) dayMs) ∧
      Backend.getDaysUntilExpiry now (some e) = some d ∧
      (d < 0 ↔ setMidnight e < setMidnight now) ∧
      (d = 0 ↔ setMidnight e = setMidnight now) ∧
      (0 < d ↔ setMidnight now < setMidnight e) := by
  refine ⟨jsCeilDiv (setMidnight e - setMidnight now) dayMs, rfl, rfl, ?_, ?_, ?_⟩ <;>
    rw [jsCeilDiv_day] <;> simp only [setMidnight, dayMs] <;> omega

/-! ## C4: each daily reminder fires once per day -/

/-- C4: for `d` in 0..5, a product whose days-until-expiry is `d` and whose
key productId_dday carries no timestamp from the current day produces, in one
evaluation, exactly the one daily reminder carrying `daysLeft = d` (in its
`data` payload) and the key is marked with the current instant; any
re-evaluation later on the same calendar day, starting from the updated
history, emits nothing for the product and leaves the history unchanged. -/
theorem C4_daily_once_per_day (now : Int) (p : Product) (h : History) (d : Int)
    (hd0 : 0 ≤ d) (hd5 : d ≤ 5)
    (hdays : Backend.getDaysUntilExpiry now p.expDate = some d)
    (hfresh : (hGet h (p.id ++ "_" ++ toString d ++ "day")).all
        (fun t => !(Backend.isSameDay t (setMidnight now))) = true) :
    (Backend.processProduct now p h).1 = [Backend.sendDailyExpiryWarning p d] ∧
    (Backend.sendDailyExpiryWarning p d).data.lookup "daysLeft" = some (toString d) ∧
    hGet (Backend.processProduct now p h).2 (p.id ++ "_" ++ toString d ++ "day")
      = some now ∧
    ∀ now', Backend.isSameDay now' now = true →
      Backend.processProduct now' p (Backend.processProduct now p h).2
        = ([], (Backend.processProduct now p h).2) := by
  have hstep := processProduct_daily_due now p h d hdays hd0 hd5 hfresh
  refine ⟨by rw [hstep], by simp [Backend.sendDailyExpiryWarning, List.lookup], ?_, ?_⟩
  · rw [hstep, hGet_hSet]
    simp
  · intro now' hsame
    rw [hstep]
    have hdays' : Backend.getDaysUntilExpiry now' p.expDate = some d := by
      rw [getDaysUntilExpiry_sameDay p.expDate hsame, hdays]
    have hget : hGet (hSet h (p.id ++ "_" ++ toString d ++ "day") now)
        (p.id ++ "_" ++ toString d ++ "day") = some now := by
      rw [hGet_hSet]; simp
    have htoday : Backend.isSameDay now (setMidnight now') = true := by
      rw [setMidnight_eq_of_sameDay hsame]
      exact isSameDay_setMidnight_self now
    exact processProduct_daily_already now' p _ d now hdays' hd0 hd5 hget htoday


/-- Witness for C4 at a concrete input: product p1 expiring in 3 days,
evaluated at instant 1000 with empty history. -/
theorem C4_daily_once_per_day_witness :
    (Backend.processProduct 1000 ⟨"p1", "Milk", some 259200500⟩ []).1
      = [Backend.sendDailyExpiryWarning ⟨"p1", "Milk", some 259200500⟩ 3] ∧
    (Backend.sendDailyExpiryWarning ⟨"p1", "Milk", some 259200500⟩ 3).data.lookup "daysLeft"
      = some (toString (3 : Int)) ∧
    hGet (Backend.processProduct 1000 ⟨"p1", "Milk", some 259200500⟩ []).2
      ("p1" ++ "_" ++ toString (3 : Int) ++ "day") = some 1000 ∧
    (∀ now', Backend.isSameDay now' 1000 = true →
      Backend.processProduct now' ⟨"p1", "Milk", some 259200500⟩
          (Backend.processProduct 1000 ⟨"p1", "Milk", some 259200500⟩ []).2
        = ([], (Backend.processProduct 1000 ⟨"p1", "Milk", some 259200500⟩ []).2)) :=
  C4_daily_once_per_day 1000 ⟨"p1", "Milk", some 259200500⟩ [] 3
    (by decide) (by decide) (by decide) (by decide)

/-! ## C5: the 10-day warning fires at most once -/

theorem daily_ne_ten (p q : Product) (d : Int) :
    Backend.sendDailyExpiryWarning p d ≠ Backend.send10DayWarning q := by
  simp only [Backend.sendDailyExpiryWarning, Backend.send10DayWarning, ne_eq,
    Message.mk.injEq, List.cons.injEq, Prod.mk.injEq]
  intro hcon
  simp at hcon

theorem processProduct_shapes (now : Int) (p : Product) (h : History) :
    Backend.processProduct now p h = ([], h) ∨
    (∃ d, Backend.processProduct now p h
        = ([Backend.sendDailyExpiryWarning p d],
           hSet h (p.id ++ "_" ++ toString d ++ "day") now)) ∨
    (hGet h (p.id ++ "_10day") = none ∧
     Backend.processProduct now p h
        = ([Backend.send10DayWarning p], hSet h (p.id ++ "_10day") now)) := by
  cases hexp : p.expDate with
  | none => exact Or.inl (processProduct_unknown now p h hexp)
  | some e =>
    obtain ⟨d, hdays⟩ : ∃ d, Backend.getDaysUntilExpiry now p.expDate = some d :=
      ⟨jsCeilDiv (setMidnight e - setMidnight now) dayMs, by
        simp [Backend.getDaysUntilExpiry, hexp]⟩
    by_cases h10 : d = 10
    · subst h10
      cases hten : hGet h (p.id ++ "_10day") with
      | none =>
        exact Or.inr (Or.inr ⟨rfl, processProduct_ten_fresh now p h hdays hten⟩)
      | some t =>
        exact Or.inl (processProduct_ten_sent now p h t hdays hten)
    · by_cases hwin : 0 ≤ d ∧ d ≤ 5
      · cases hget : hGet h (p.id ++ "_" ++ toString d ++ "day") with
        | none =>
          refine Or.inr (Or.inl ⟨d, ?_⟩)
          exact processProduct_daily_due now p h d hdays hwin.1 hwin.2 (by simp [hget])
        | some t =>
          by_cases hsame : Backend.isSameDay t (setMidnight now) = true
          · exact Or.inl
              (processProduct_daily_already now p h d t hdays hwin.1 hwin.2 hget hsame)
          · refine Or.inr (Or.inl ⟨d, ?_⟩)
            refine processProduct_daily_due now p h d hdays hwin.1 hwin.2 ?_
            simp only [hget, Option.all_some]
            simpa using hsame
      · exact Or.inl (processProduct_outside now p h d hdays h10 hwin)

theorem tenDayCount_append (p : Product) (a b : List Message) :
    Backend.tenDayCount p (a ++ b)
      = Backend.tenDayCount p a + Backend.tenDayCount p b := by
  simp [Backend.tenDayCount, List.countP_append]

theorem runEvals_ten (p : Product) (nows : List Int) : ∀ h : History,
    (hGet h (p.id ++ "_10day") ≠ none →
      Backend.tenDayCount p (Backend.runEvals p h nows).1 = 0 ∧
      hGet (Backend.runEvals p h nows).2 (p.id ++ "_10day") ≠ none) ∧
    Backend.tenDayCount p (Backend.runEvals p h nows).1 ≤ 1 := by
  induction nows with
  | nil =>
    intro h
    exact ⟨fun hp => ⟨by simp [Backend.runEvals, Backend.tenDayCount], hp⟩,
      by simp [Backend.runEvals, Backend.tenDayCount]⟩
  | cons now rest ih =>
    intro h
    have hshape := processProduct_shapes now p h
    have hsplit : Backend.runEvals p h (now :: rest)
        = ((Backend.processProduct now p h).1 ++
            (Backend.runEvals p (Backend.processProduct now p h).2 rest).1,
           (Backend.runEvals p (Backend.processProduct now p h).2 rest).2) := rfl
    rcases hshape with hid | ⟨d, hdly⟩ | ⟨hnone, hten⟩
    · rw [hsplit, hid]
      have hrest := ih h
      constructor
      · intro hp
        rcases (hrest.1 hp) with ⟨hc, hk⟩
        exact ⟨by simpa [tenDayCount_append, Backend.tenDayCount] using hc, hk⟩
      · simpa [tenDayCount_append, Backend.tenDayCount] using hrest.2
    · rw [hsplit, hdly]
      have hrest := ih (hSet h (p.id ++ "_" ++ toString d ++ "day") now)
      constructor
      · intro hp
        have hp' := hGet_hSet_preserves h (p.id ++ "_" ++ toString d ++ "day")
          (p.id ++ "_10day") now hp
        rcases (hrest.1 hp') with ⟨hc, hk⟩
        refine ⟨?_, hk⟩
        simp only [Backend.tenDayCount] at hc ⊢
        simp [List.countP_cons, daily_ne_ten, hc]
      · have hle := hrest.2
        simp only [Backend.tenDayCount] at hle ⊢
        simpa [List.countP_cons, daily_ne_ten] using hle
    · rw [hsplit, hten]
      have hp' : hGet (hSet h (p.id ++ "_10day") now) (p.id ++ "_10day") ≠ none := by
        rw [hGet_hSet]; simp
      have hrest := (ih (hSet h (p.id ++ "_10day") now)).1 hp'
      constructor
      · intro hp
        exact absurd hnone hp
      · have hc := hrest.1
        simp only [Backend.tenDayCount] at hc ⊢
        simp [List.countP_cons, hc]

/-- C5: across any sequence of evaluations of one product, starting from any
history, the 10-day warning is emitted at most once; and if the key
productId_10day is already present at the start (it is never removed by any
evaluation), no evaluation of the sequence emits it at all. -/
theorem C5_ten_day_at_most_once (p : Product) (h : History) (nows : List Int) :
    (hGet h (p.id ++ "_10day") ≠ none →
      Backend.tenDayCount p (Backend.runEvals p h nows).1 = 0) ∧
    Backend.tenDayCount p (Backend.runEvals p h nows).1 ≤ 1 :=
  ⟨fun hp => ((runEvals_ten p nows h).1 hp).1, (runEvals_ten p nows h).2⟩

/-- Witness for C5 at a concrete input: key already present, three
evaluations on the day the product is 10 days from expiry. -/
theorem C5_ten_day_at_most_once_witness :
    (hGet [("p1_10day", 5)] ("p1" ++ "_10day") ≠ none →
      Backend.tenDayCount ⟨"p1", "Milk", some 864000000⟩
        (Backend.runEvals ⟨"p1", "Milk", some 864000000⟩ [("p1_10day", 5)]
          [0, 1000, 2000]).1 = 0) ∧
    Backend.tenDayCount ⟨"p1", "Milk", some 864000000⟩
      (Backend.runEvals ⟨"p1", "Milk", some 864000000⟩ [("p1_10day", 5)]
        [0, 1000, 2000]).1 ≤ 1 :=
  C5_ten_day_at_most_once ⟨"p1", "Milk", some 864000000⟩ [("p1_10day", 5)] [0, 1000, 2000]

/-! ## C6: when the weekly digest is due -/

/-- C6: the weekly digest is due exactly when no previous digest timestamp
is recorded, or at least 7 full days (inclusive boundary) have elapsed from
the recorded timestamp to the current instant. -/
theorem C6_weekly_due_iff (now : Int) (lwc : Option Int) :
    Backend.shouldSendWeeklyNotification now lwc = true
      ↔ (lwc = none ∨ ∃ t, lwc = some t ∧ 7 * dayMs ≤ now - t) := by
  cases lwc with
  | none => simp [Backend.shouldSendWeeklyNotification]
  | some t =>
    simp only [Backend.shouldSendWeeklyNotification, jsFloorDiv_day, decide_eq_true_eq,
      Option.some.injEq, reduceCtorEq, false_or]
    constructor
    · intro hdue
      refine ⟨t, rfl, ?_⟩
      simp only [dayMs] at *
      omega
    · rintro ⟨t', ht', hle⟩
      cases ht'
      simp only [dayMs] at *
      omega

/-! ## C8: malformed expiry dates -/

/-- C8 counterexample: a product with a missing/unparseable expiry date IS
counted by the second implementation's weekly digest reported total
(`totalItems` is the length of the full product list): with a single
malformed product the digest reports "1", though the claim requires the
malformed product not to be counted. -/
theorem C8_counterexample :
    (⟨"pm", "Mystery", none⟩ : Product).expDate = none ∧
    Part008.sendWeeklySummary [⟨"pm", "Mystery", none⟩]
      = [{ title := " Weekly Reminder"
           body := "check your food items!"
           data := [("type", "weekly_reminder"), ("totalItems", "1")] }] :=
  ⟨rfl, rfl⟩

/-- C8 amended: a product whose expiry date is missing or unparseable emits
no 10-day and no daily reminder, leaves the history untouched (and the
evaluation is a total function, so nothing is thrown), and is excluded from
the backend digest's expiring-soon count; the second implementation's digest,
however, counts every product — including the malformed one — in its
reported `totalItems`. -/
theorem C8_malformed_skipped (now : Int) (p : Product) (h : History)
    (ps : List Product) (hexp : p.expDate = none) :
    Backend.processProduct now p h = ([], h) ∧
    Backend.expiringSoon now (p :: ps) = Backend.expiringSoon now ps ∧
    Part008.sendWeeklySummary (p :: ps)
      = [{ title := " Weekly Reminder"
           body := "check your food items!"
           data := [("type", "weekly_reminder"), ("totalItems", toString (ps.length + 1))] }] := by
  refine ⟨processProduct_unknown now p h hexp, ?_, ?_⟩
  · simp [Backend.expiringSoon, Backend.getDaysUntilExpiry, hexp, List.filter_cons]
  · simp [Part008.sendWeeklySummary]

/-- Witness for C8 amended at a concrete input. -/
theorem C8_malformed_skipped_witness :
    Backend.processProduct 0 ⟨"pm", "Mystery", none⟩ [] = ([], []) ∧
    Backend.expiringSoon 0 [⟨"pm", "Mystery", none⟩] = Backend.expiringSoon 0 [] ∧
    Part008.sendWeeklySummary [⟨"pm", "Mystery", none⟩]
      = [{ title := " Weekly Reminder"
           body := "check your food items!"
           data := [("type", "weekly_reminder"), ("totalItems", toString (List.length ([] : List Product) + 1))] }] :=
  C8_malformed_skipped 0 ⟨"pm", "Mystery", none⟩ [] [] rfl

/-! ## C9: writes per user per pass -/

/-- C9 counterexample: for a user whose weekly digest is due (no recorded
timestamp), a single pass issues TWO store writes — `lastWeeklyCheck` first,
then `notificationHistory` — not one combined write. -/
theorem C9_counterexample :
    (Backend.processUserNotifications 0 ⟨"u1", some "tok", none, []⟩ []).2
      = [WriteOp.lastWeekly "u1" 0, WriteOp.history "u1" []] ∧
    (Backend.processUserNotifications 0 ⟨"u1", some "tok", none, []⟩ []).2.length = 2 :=
  ⟨rfl, rfl⟩

/-- C9 amended: per user per pass the notification history is persisted by
exactly one `notificationHistory` write — one per pass, not one per
notification, however many reminders were emitted — but the full notification
state is not a single write: when the weekly digest is due a separate
`lastWeeklyCheck` write precedes it, making two writes for that user. -/
theorem C9_write_discipline (now : Int) (u : User) (ps : List Product) :
    (Backend.processUserNotifications now u ps).2.countP WriteOp.isHistory = 1 ∧
    (Backend.processUserNotifications now u ps).2.length
      = (if Backend.shouldSendWeeklyNotification now u.lastWeeklyCheck then 2 else 1) := by
  by_cases hw : Backend.shouldSendWeeklyNotification now u.lastWeeklyCheck = true
  · simp [Backend.processUserNotifications, hw, WriteOp.isHistory,
      List.countP_cons, List.countP_nil]
  · simp only [Bool.not_eq_true] at hw
    simp [Backend.processUserNotifications, hw, WriteOp.isHistory,
      List.countP_cons, List.countP_nil]

/-! ## C3: the weekly digest and its cadence -/

/-- C3 counterexample: user u1 is due for the digest (no recorded timestamp)
and has zero products: the pass emits NO delivery call at all, yet
`lastWeeklyCheck` is still updated — contradicting the claim that a digest
delivery call is emitted even when zero products qualify. -/
theorem C3_counterexample :
    Backend.shouldSendWeeklyNotification 0 none = true ∧
    (Backend.processUserNotifications 0 ⟨"u1", some "tok", none, []⟩ []).1 = [] ∧
    WriteOp.lastWeekly "u1" 0
      ∈ (Backend.processUserNotifications 0 ⟨"u1", some "tok", none, []⟩ []).2 := by
  refine ⟨rfl, rfl, by decide⟩

theorem processProducts_no_weekly (now : Int) (ps : List Product) : ∀ h m,
    m ∈ (Backend.processProducts now ps h).1 → ("type", "weekly_summary") ∉ m.data := by
  induction ps with
  | nil =>
    intro h m hm
    simp [Backend.processProducts] at hm
  | cons p rest ih =>
    intro h m hm
    have hsplit : Backend.processProducts now (p :: rest) h
        = ((Backend.processProduct now p h).1 ++
            (Backend.processProducts now rest (Backend.processProduct now p h).2).1,
           (Backend.processProducts now rest (Backend.processProduct now p h).2).2) := rfl
    rw [hsplit] at hm
    simp only [List.mem_append] at hm
    rcases hm with hm | hm
    · rcases processProduct_shapes now p h with hid | ⟨d, hdly⟩ | ⟨_, hten⟩
      · rw [hid] at hm
        simp at hm
      · rw [hdly] at hm
        simp only [List.mem_singleton] at hm
        subst hm
        simp [Backend.sendDailyExpiryWarning]
      · rw [hten] at hm
        simp only [List.mem_singleton] at hm
        subst hm
        simp [Backend.send10DayWarning]
    · exact ih _ m hm

/-- C3 amended: whenever the weekly digest is due for a user, the pass
updates `lastWeeklyCheck` to the run day's midnight regardless of how many
products qualify (the cadence is always consumed); but the backend emits a
digest delivery call if and only if at least one product has days-until-expiry
in 0..7 — with zero qualifying items the delivery is suppressed by the early
return in `sendWeeklySummary`. -/
theorem C3_weekly_cadence (now : Int) (u : User) (ps : List Product)
    (hdue : Backend.shouldSendWeeklyNotification now u.lastWeeklyCheck = true) :
    WriteOp.lastWeekly u.id (setMidnight now)
      ∈ (Backend.processUserNotifications now u ps).2 ∧
    ((∃ m ∈ (Backend.processUserNotifications now u ps).1,
        ("type", "weekly_summary") ∈ m.data)
      ↔ Backend.expiringSoon now ps ≠ []) := by
  have hout : Backend.processUserNotifications now u ps
      = (Backend.sendWeeklySummary now ps
          ++ (Backend.processProducts now ps u.notificationHistory).1,
         [WriteOp.lastWeekly u.id (setMidnight now)]
          ++ [WriteOp.history u.id (Backend.processProducts now ps u.notificationHistory).2]) := by
    simp [Backend.processUserNotifications, hdue]
  rw [hout]
  refine ⟨by simp, ?_⟩
  by_cases hsoon : Backend.expiringSoon now ps = []
  · have hws : Backend.sendWeeklySummary now ps = [] := by
      simp [Backend.sendWeeklySummary, hsoon]
    rw [hws]
    simp only [List.nil_append, hsoon, ne_eq, not_true_eq_false, iff_false, not_exists]
    intro m hm
    exact processProducts_no_weekly now ps u.notificationHistory m hm.1 hm.2
  · have hlen : (Backend.expiringSoon now ps).length ≠ 0 := by
      simpa [List.length_eq_zero] using hsoon
    have hws : Backend.sendWeeklySummary now ps
        = [{ title := "🗓️ Weekly Food Check"
             body := "You have " ++ toString (Backend.expiringSoon now ps).length
               ++ " item(s) expiring within 7 days!"
             data := [("type", "weekly_summary"),
                      ("count", toString (Backend.expiringSoon now ps).length)] }] := by
      simp [Backend.sendWeeklySummary, hlen]
    rw [hws]
    constructor
    · intro _
      exact hsoon
    · intro _
      refine ⟨_, List.mem_append_left _ (List.mem_singleton_self _), ?_⟩
      simp

/-- Witness for C3 amended at a concrete input: digest due, one product
expiring today. -/
theorem C3_weekly_cadence_witness :
    WriteOp.lastWeekly "u1" (setMidnight 0)
      ∈ (Backend.processUserNotifications 0 ⟨"u1", some "tok", none, []⟩
          [⟨"p1", "Milk", some 1000⟩]).2 ∧
    ((∃ m ∈ (Backend.processUserNotifications 0 ⟨"u1", some "tok", none, []⟩
          [⟨"p1", "Milk", some 1000⟩]).1,
        ("type", "weekly_summary") ∈ m.data)
      ↔ Backend.expiringSoon 0 [⟨"p1", "Milk", some 1000⟩] ≠ []) :=
  C3_weekly_cadence 0 ⟨"u1", some "tok", none, []⟩ [⟨"p1", "Milk", some 1000⟩] rfl

/-! ## C1: delivery failure and history marking -/

theorem processProductD_erase (now : Int) (p : Product) (h : History)
    (ork : Nat → Bool) (k : Nat) :
    (Backend.processProductD now p h ork k).1.map Prod.fst
        = (Backend.processProduct now p h).1 ∧
    (Backend.processProductD now p h ork k).2.1 = (Backend.processProduct now p h).2 ∧
    (Backend.processProductD now p h ork k).2.2
        = k + (Backend.processProduct now p h).1.length := by
  cases hdays : Backend.getDaysUntilExpiry now p.expDate with
  | none => simp [Backend.processProductD, Backend.processProduct, hdays]
  | some d =>
    by_cases h10 : d = 10
    · subst h10
      cases hten : hGet h (p.id ++ "_10day") with
      | none =>
        simp [Backend.processProductD, Backend.processProduct, hdays, hten,
          (by omega : ¬((0 : Int) ≤ 10 ∧ (10 : Int) ≤ 5))]
      | some t =>
        simp [Backend.processProductD, Backend.processProduct, hdays, hten,
          (by omega : ¬((0 : Int) ≤ 10 ∧ (10 : Int) ≤ 5))]
    · by_cases hwin : 0 ≤ d ∧ d ≤ 5
      · cases hget : hGet h (p.id ++ "_" ++ toString d ++ "day") with
        | none =>
          simp [Backend.processProductD, Backend.processProduct, hdays, h10, hwin, hget]
        | some t =>
          by_cases hsame : Backend.isSameDay t (setMidnight now) = true
          · simp [Backend.processProductD, Backend.processProduct, hdays, h10, hwin,
              hget, hsame]
          · simp only [Bool.not_eq_true] at hsame
            simp [Backend.processProductD, Backend.processProduct, hdays, h10, hwin,
              hget, hsame]
      · simp [Backend.processProductD, Backend.processProduct, hdays, h10, hwin]

theorem processProductsD_erase (now : Int) (ps : List Product) : ∀ (h : History)
    (ork : Nat → Bool) (k : Nat),
    (Backend.processProductsD now ps h ork k).1.map Prod.fst
        = (Backend.processProducts now ps h).1 ∧
    (Backend.processProductsD now ps h ork k).2.1 = (Backend.processProducts now ps h).2 := by
  induction ps with
  | nil =>
    intro h ork k
    simp [Backend.processProductsD, Backend.processProducts]
  | cons p rest ih =>
    intro h ork k
    obtain ⟨h1, h2, _⟩ := processProductD_erase now p h ork k
    have hsplitD : Backend.processProductsD now (p :: rest) h ork k
        = ((Backend.processProductD now p h ork k).1 ++
            (Backend.processProductsD now rest (Backend.processProductD now p h ork k).2.1
              ork (Backend.processProductD now p h ork k).2.2).1,
           (Backend.processProductsD now rest (Backend.processProductD now p h ork k).2.1
              ork (Backend.processProductD now p h ork k).2.2).2) := rfl
    have hsplit : Backend.processProducts now (p :: rest) h
        = ((Backend.processProduct now p h).1 ++
            (Backend.processProducts now rest (Backend.processProduct now p h).2).1,
           (Backend.processProducts now rest (Backend.processProduct now p h).2).2) := rfl
    rw [hsplitD, hsplit, ← h2]
    obtain ⟨ih1, ih2⟩ := ih (Backend.processProductD now p h ork k).2.1 ork
      (Backend.processProductD now p h ork k).2.2
    exact ⟨by simp [List.map_append, h1, ih1], by simp [ih2]⟩

theorem Backend.attachOutcomes_erase (ms : List Message) : ∀ (ork : Nat → Bool) (k : Nat),
    (Backend.attachOutcomes ms ork k).1.map Prod.fst = ms ∧
    (Backend.attachOutcomes ms ork k).2 = k + ms.length := by
  induction ms with
  | nil => intro ork k; simp [Backend.attachOutcomes]
  | cons m rest ih =>
    intro ork k
    obtain ⟨ih1, ih2⟩ := ih ork (k + 1)
    refine ⟨?_, ?_⟩
    · simp [Backend.attachOutcomes, ih1]
    · simp [Backend.attachOutcomes, ih2]
      omega

/-- C1 counterexample: user u1 with one product exactly 10 days from expiry,
delivery failing for every send (oracle constantly false): the pass emits the
10-day warning whose delivery result is failure, and the persisted
`notificationHistory` nevertheless marks the key p1_10day — the failed send is
NOT left unmarked. -/
theorem C1_counterexample :
    (Backend.processUserNotificationsD 0 ⟨"u1", some "tok", some 0, []⟩
        [⟨"p1", "Milk", some 864000000⟩] (fun _ => false)).1
      = [(Backend.send10DayWarning ⟨"p1", "Milk", some 864000000⟩,
          { success := false })] ∧
    (Backend.processUserNotificationsD 0 ⟨"u1", some "tok", some 0, []⟩
        [⟨"p1", "Milk", some 864000000⟩] (fun _ => false)).2
      = [WriteOp.history "u1" [("p1_10day", 0)]] := by
  constructor
  · rfl
  · rfl

/-- C1 amended: delivery outcomes never influence the evaluated reminders or
the persisted state: `sendNotification` catches the FCM error and reports it
only through a success flag that no caller reads, so for every outcome oracle
the messages evaluated and the writes issued — including the history marking
of every emitted reminder's key — are identical to the all-success run; a
failed send is therefore marked sent and is not retried on the next pass. -/
theorem C1_history_marked_regardless (now : Int) (u : User) (ps : List Product)
    (ork : Nat → Bool) :
    (Backend.processUserNotificationsD now u ps ork).1.map Prod.fst
        = (Backend.processUserNotifications now u ps).1 ∧
    (Backend.processUserNotificationsD now u ps ork).2
        = (Backend.processUserNotifications now u ps).2 := by
  by_cases hw : Backend.shouldSendWeeklyNotification now u.lastWeeklyCheck = true
  · have hD : Backend.processUserNotificationsD now u ps ork
        = ((Backend.attachOutcomes (Backend.sendWeeklySummary now ps) ork 0).1 ++
            (Backend.processProductsD now ps u.notificationHistory ork
              (Backend.attachOutcomes (Backend.sendWeeklySummary now ps) ork 0).2).1,
           [WriteOp.lastWeekly u.id (setMidnight now)] ++
            [WriteOp.history u.id
              (Backend.processProductsD now ps u.notificationHistory ork
                (Backend.attachOutcomes (Backend.sendWeeklySummary now ps) ork 0).2).2.1]) := by
      simp [Backend.processUserNotificationsD, hw]
    have hP : Backend.processUserNotifications now u ps
        = (Backend.sendWeeklySummary now ps ++
            (Backend.processProducts now ps u.notificationHistory).1,
           [WriteOp.lastWeekly u.id (setMidnight now)] ++
            [WriteOp.history u.id (Backend.processProducts now ps u.notificationHistory).2]) := by
      simp [Backend.processUserNotifications, hw]
    rw [hD, hP]
    obtain ⟨ha1, _⟩ := Backend.attachOutcomes_erase (Backend.sendWeeklySummary now ps) ork 0
    obtain ⟨hp1, hp2⟩ := processProductsD_erase now ps u.notificationHistory ork
      (Backend.attachOutcomes (Backend.sendWeeklySummary now ps) ork 0).2
    exact ⟨by simp [List.map_append, ha1, hp1], by simp [hp2]⟩
  · simp only [Bool.not_eq_true] at hw
    have hD : Backend.processUserNotificationsD now u ps ork
        = ((Backend.processProductsD now ps u.notificationHistory ork 0).1,
           [WriteOp.history u.id
             (Backend.processProductsD now ps u.notificationHistory ork 0).2.1]) := by
      simp [Backend.processUserNotificationsD, hw]
    have hP : Backend.processUserNotifications now u ps
        = ((Backend.processProducts now ps u.notificationHistory).1,
           [WriteOp.history u.id (Backend.processProducts now ps u.notificationHistory).2]) := by
      simp [Backend.processUserNotifications, hw]
    rw [hD, hP]
    obtain ⟨hp1, hp2⟩ := processProductsD_erase now ps u.notificationHistory ork 0
    exact ⟨hp1, by simp [hp2]⟩

/-! ## C2: a store read failure mid-pass -/

/-- C2 counterexample: two users both holding FCM tokens; the store read for
u1 fails while u2's would succeed, yet the pass processes NOBODY and issues
no write: the thrown error aborts the whole user loop, so u2 — a remaining
user — is not evaluated, contradicting the claim that only the failing user
is skipped. -/
theorem C2_counterexample :
    (Backend.passLoop 0
        [⟨"u1", some "tokA", some 0, []⟩, ⟨"u2", some "tokB", some 0, []⟩]
        (fun _ => []) (fun uid => uid == "u1")).processed = [] ∧
    (Backend.passLoop 0
        [⟨"u1", some "tokA", some 0, []⟩, ⟨"u2", some "tokB", some 0, []⟩]
        (fun _ => []) (fun uid => uid == "u1")).writes = [] ∧
    (Backend.passLoop 0
        [⟨"u1", some "tokA", some 0, []⟩, ⟨"u2", some "tokB", some 0, []⟩]
        (fun _ => []) (fun uid => uid == "u1")).aborted = true ∧
    (("u2" == "u1") = false) :=
  ⟨rfl, rfl, rfl, rfl⟩

/-- C2 amended: a store read failure for one user does not isolate to that
user: users scanned before it are processed normally, and no write is issued
for the failing user — but the thrown error ends the loop, so every user
after the failing one is also skipped for this pass (the backend catches and
logs at the top of `checkAndSendExpiryNotifications`, the second copy
rethrows; either way the loop is over). -/
theorem C2_read_failure_aborts (now : Int) (u : User) (users2 : List User)
    (productsOf : String → List Product) (readFails : String → Bool)
    (hu : u.fcmToken.isSome = true) (hfail : readFails u.id = true) :
    ∀ users1 : List User, (∀ v ∈ users1, readFails v.id = false) →
      Backend.passLoop now (users1 ++ u :: users2) productsOf readFails
        = { Backend.passLoop now users1 productsOf readFails with aborted := true } := by
  intro users1
  induction users1 with
  | nil =>
    intro _
    cases htok : u.fcmToken with
    | none => rw [htok] at hu; cases hu
    | some tok => simp [Backend.passLoop, htok, hfail]
  | cons v rest ih =>
    intro hok
    have hvok : readFails v.id = false := hok v (List.mem_cons_self v rest)
    have hok' : ∀ w ∈ rest, readFails w.id = false :=
      fun w hw => hok w (List.mem_cons_of_mem v hw)
    cases hvtok : v.fcmToken with
    | none =>
      simp only [List.cons_append, Backend.passLoop, hvtok]
      exact ih hok'
    | some tok =>
      have hrec := ih hok'
      simp only [List.cons_append, Backend.passLoop, hvtok, hvok, List.append_eq]
      rw [hrec]
      simp

/-- Witness for C2 amended at a concrete input: empty prefix, failing user
u1, one further user u2. -/
theorem C2_read_failure_aborts_witness :
    Backend.passLoop 0 ([] ++ (⟨"u1", some "tokA", some 0, []⟩ : User)
        :: [⟨"u2", some "tokB", some 0, []⟩])
        (fun _ => []) (fun uid => uid == "u1")
      = { Backend.passLoop 0 [] (fun _ => []) (fun uid => uid == "u1")
          with aborted := true } :=
  C2_read_failure_aborts 0 ⟨"u1", some "tokA", some 0, []⟩
    [⟨"u2", some "tokB", some 0, []⟩] (fun _ => []) (fun uid => uid == "u1")
    rfl rfl [] (by simp)

/-! ## C10: the two implementations agree per product -/

/-- C10: the two NotificationService copies are extensionally equal on the
helpers `getDaysUntilExpiry`, `isSameDay` and `shouldSendWeeklyNotification`,
and one product-loop iteration makes identical decisions on equal inputs:
the same updated notificationHistory (hence the same keys marked with the
same timestamps) and emitted reminders with the same `data` payloads — same
`type`, `productId` and `daysLeft` — for the 10-day and daily warnings. -/
theorem C10_implementations_agree (now a b : Int) (ed lwc : Option Int)
    (p : Product) (h : History) :
    Backend.getDaysUntilExpiry now ed = Part008.getDaysUntilExpiry now ed ∧
    Backend.isSameDay a b = Part008.isSameDay a b ∧
    Backend.shouldSendWeeklyNotification now lwc
      = Part008.shouldSendWeeklyNotification now lwc ∧
    (Backend.processProduct now p h).2 = (Part008.processProduct now p h).2 ∧
    (Backend.processProduct now p h).1.map Message.data
      = (Part008.processProduct now p h).1.map Message.data := by
  refine ⟨rfl, rfl, rfl, ?_, ?_⟩ <;>
  · cases hdays : Backend.getDaysUntilExpiry now p.expDate with
    | none =>
      have hdaysP : Part008.getDaysUntilExpiry now p.expDate = none := hdays
      simp [Backend.processProduct, Part008.processProduct, hdays, hdaysP]
    | some d =>
      have hdaysP : Part008.getDaysUntilExpiry now p.expDate = some d := hdays
      by_cases h10 : d = 10
      · subst h10
        cases hten : hGet h (p.id ++ "_10day") with
        | none =>
          simp [Backend.processProduct, Part008.processProduct, hdays, hdaysP, hten,
            Backend.send10DayWarning, Part008.send10DayWarning,
            (by omega : ¬((0 : Int) ≤ 10 ∧ (10 : Int) ≤ 5))]
        | some t =>
          simp [Backend.processProduct, Part008.processProduct, hdays, hdaysP, hten,
            (by omega : ¬((0 : Int) ≤ 10 ∧ (10 : Int) ≤ 5))]
      · by_cases hwin : 0 ≤ d ∧ d ≤ 5
        · cases hget : hGet h (p.id ++ "_" ++ toString d ++ "day") with
          | none =>
            simp [Backend.processProduct, Part008.processProduct, hdays, hdaysP,
              h10, hwin, hget,
              Backend.sendDailyExpiryWarning, Part008.sendDailyExpiryWarning]
          | some t =>
            by_cases hsame : Backend.isSameDay t (setMidnight now) = true
            · have hsameP : Part008.isSameDay t (setMidnight now) = true := hsame
              simp [Backend.processProduct, Part008.processProduct, hdays, hdaysP,
                h10, hwin, hget, hsame, hsameP]
            · simp only [Bool.not_eq_true] at hsame
              have hsameP : Part008.isSameDay t (setMidnight now) = false := hsame
              simp [Backend.processProduct, Part008.processProduct, hdays, hdaysP,
                h10, hwin, hget, hsame, hsameP,
                Backend.sendDailyExpiryWarning, Part008.sendDailyExpiryWarning]
        · simp [Backend.processProduct, Part008.processProduct, hdays, hdaysP,
            h10, hwin]

end Mint
